import Mathlib

/-!
# Verification of the qr_compare indexing and reconciliation engine

Shallow embedding of `src/main.py` (classes `DecodedObjectFile`,
`DecodedObjectFileIndex`, `DecodedObjectFolderComparison`) together with
proofs of the specified properties.

Modelling conventions:
* Python strings are Lean `String`s; `str.startswith` is a character-level
  test, modelled on the underlying character list (`String.data`).
* Python dictionaries (which preserve insertion order and have unique keys)
  are modelled as insertion-ordered association lists; assigning to an
  existing key updates the first (and only) binding in place, assigning to
  a fresh key appends the binding at the end — exactly the observable
  behaviour of a `dict`.
* `os.sep` is modelled as `"/"` (the POSIX separator).
* `os.path.relpath fp d` is only ever invoked by the source after checking
  `fp.startswith(d + os.sep)`; on such canonical inputs it returns `fp`
  with the leading `d + os.sep` removed, which is how it is modelled.
-/

namespace QrCompare

/-- The platform path separator `os.sep`, modelled as the POSIX `"/"`. -/
def osSep : String := "/"

/-- Python `filepath.startswith(dirpath + os.sep)` (main.py lines 69, 93,
101): character-level prefix test. -/
def startsWithDir (dirpath fp : String) : Bool :=
  List.isPrefixOf (dirpath ++ osSep).data fp.data

/-- Python `os.path.relpath(fp, dirpath)` in the only situation the source
uses it: `fp` starts with `dirpath ++ osSep`.  The result drops that
leading directory part and the separator. -/
def relpath (fp dirpath : String) : String :=
  String.mk (fp.data.drop (dirpath.data.length + osSep.data.length))

/-- Class `DecodedObjectFile` (main.py lines 9-16).  `code = none` models
Python `None`. -/
structure DecodedObjectFile where
  code : Option String
  type : Option String
  filepath : String
deriving DecidableEq, Repr

/-- The `DecodedObjectFile.__init__` constructor (main.py line 10-13):
`self.code = str(code) if code else None`, so a falsy `code` argument —
`None` or the empty string — is stored as `None`. -/
def DecodedObjectFile.make (code : Option String) (type : Option String)
    (filepath : String) : DecodedObjectFile :=
  { code := match code with
            | none => none
            | some s => if s = "" then none else some s
    type := type
    filepath := filepath }

/-- `DecodedObjectFile.is_not_detected` (main.py lines 15-16). -/
def DecodedObjectFile.is_not_detected (o : DecodedObjectFile) : Bool :=
  o.code.isNone

/-- First-match lookup in an insertion-ordered association list; models
Python `m[k]` returning `none` where Python would raise `KeyError`. -/
def assocLookup {α : Type} : List (String × α) → String → Option α
  | [], _ => none
  | (k2, v) :: rest, k => if k2 = k then some v else assocLookup rest k

/-- Python `detected.setdefault-style` update (main.py lines 30-33): if the
key is present its path list gets `fp` appended, otherwise a fresh binding
`(code, [fp])` is appended at the end of the dict. -/
def insertDetected : List (String × List String) → String → String →
    List (String × List String)
  | [], code, fp => [(code, [fp])]
  | (k, v) :: rest, code, fp =>
      if k = code then (k, v ++ [fp]) :: rest
      else (k, v) :: insertDetected rest code fp

/-- Python `code2type[obj.code] = obj.type` (main.py line 28): overwrite in
place when the key exists, append a fresh binding otherwise. -/
def setType : List (String × Option String) → String → Option String →
    List (String × Option String)
  | [], code, t => [(code, t)]
  | (k, v) :: rest, code, t =>
      if k = code then (k, t) :: rest
      else (k, v) :: setType rest code t

/-- Class `DecodedObjectFileIndex` (main.py lines 18-43): the two dicts and
the undetected list, dicts modelled as insertion-ordered association
lists. -/
structure DecodedObjectFileIndex where
  detected : List (String × List String)
  undetected : List String
  code2type : List (String × Option String)
deriving DecidableEq, Repr

/-- One iteration of the loop body of `create_index` (main.py lines 23-33).
The `none` branch is the `is_not_detected` / `continue` path. -/
def create_index_step (idx : DecodedObjectFileIndex)
    (obj : DecodedObjectFile) : DecodedObjectFileIndex :=
  match obj.code with
  | none =>
      { idx with undetected := idx.undetected ++ [obj.filepath] }
  | some c =>
      { idx with
        code2type := setType idx.code2type c obj.type
        detected := insertDetected idx.detected c obj.filepath }

/-- `DecodedObjectFileIndex.create_index` (main.py lines 19-35). -/
def create_index (dec_objs : List DecodedObjectFile) :
    DecodedObjectFileIndex :=
  dec_objs.foldl create_index_step { detected := [], undetected := [], code2type := [] }

/-- `DecodedObjectFileIndex.get_decoded_object_type` (main.py lines 42-43);
`none` models the `KeyError` Python would raise for an unknown code. -/
def get_decoded_object_type (idx : DecodedObjectFileIndex) (code : String) :
    Option (Option String) :=
  assocLookup idx.code2type code

/-- One iteration of the counting loop of `compare` (main.py lines 67-70):
bump the slot of every directory that contains `fp`. -/
def count_arr_step (dirs : List String) (arr : List Nat) (fp : String) :
    List Nat :=
  List.zipWith (fun cnt d => if startsWithDir d fp then cnt + 1 else cnt) arr dirs

/-- The per-code count vector of `compare` (main.py lines 66-70):
`count_arr[i]` counts the file paths lying under `cmp_dirpaths[i]`. -/
def count_arr (filepaths dirs : List String) : List Nat :=
  filepaths.foldl (count_arr_step dirs) (dirs.map (fun _ => 0))

/-- The label computation of `compare` for one code (main.py lines 74-83). -/
def classify_code (counts : List Nat) : List String :=
  if counts.all (fun cnt => cnt == 1) then ["MATCH_ALL"]
  else
    let res :=
      (if counts.any (fun cnt => cnt == 0) then ["MISSING"] else []) ++
      (if counts.any (fun cnt => decide (1 < cnt)) then ["DUPLICATED"] else [])
    if res.length == 0 then ["INVALID"] else res

/-- The `cmp_res` mapping built by the loop of `compare` (main.py lines
65-83): one label list per detected code, in dict order. -/
def compare_labels (idx : DecodedObjectFileIndex) (dirs : List String) :
    List (String × List String) :=
  idx.detected.map (fun p => (p.1, classify_code (count_arr p.2 dirs)))

/-- A report cell.  Python rows mix scalars and lists; `err` models the
`KeyError` raised when a dict lookup inside `_compare_result` misses. -/
inductive Cell where
  | str : String → Cell
  | strs : List String → Cell
  | opt : Option String → Cell
  | err : Cell
deriving DecidableEq, Repr

/-- The row `_compare_result` builds for one detected code (main.py lines
90-96). -/
def detected_row (cmp_res : List (String × List String))
    (idx : DecodedObjectFileIndex) (dirs : List String)
    (code : String) (filepaths : List String) : List Cell :=
  (match assocLookup cmp_res code with
   | some labels => Cell.strs labels
   | none => Cell.err) ::
  Cell.str code ::
  (match get_decoded_object_type idx code with
   | some t => Cell.opt t
   | none => Cell.err) ::
  dirs.map (fun d =>
    Cell.strs ((filepaths.filter (fun fp => startsWithDir d fp)).map
      (fun fp => relpath fp d)))

/-- The row `_compare_result` builds for one undetected file (main.py lines
98-103). -/
def undetected_row (dirs : List String) (fp : String) : List Cell :=
  Cell.str "NO_DETECTED" :: Cell.str "None" :: Cell.str "None" ::
  dirs.map (fun d =>
    Cell.str (if startsWithDir d fp then relpath fp d else ""))

/-- `DecodedObjectFolderComparison._compare_result` (main.py lines 86-104):
the header and the rows, detected codes first, undetected files after. -/
def compare_result (idx : DecodedObjectFileIndex)
    (cmp_res : List (String × List String)) (dirs : List String) :
    List String × List (List Cell) :=
  (["Compare Result", "CODE", "Decoded Type"] ++ dirs,
   idx.detected.map (fun p => detected_row cmp_res idx dirs p.1 p.2) ++
   idx.undetected.map (fun fp => undetected_row dirs fp))

/-- `DecodedObjectFolderComparison.compare` (main.py lines 64-84): build
`cmp_res` for every detected code, then return `_compare_result`. -/
def compare (idx : DecodedObjectFileIndex) (dirs : List String) :
    List String × List (List Cell) :=
  compare_result idx (compare_labels idx dirs) dirs

/-! ## Association list lemmas -/

theorem assocLookup_insertDetected_self (d : List (String × List String)) (c fp : String) :
    assocLookup (insertDetected d c fp) c = some ((assocLookup d c).getD [] ++ [fp]) := by
  induction d with
  | nil => simp [insertDetected, assocLookup]
  | cons p rest ih =>
    obtain ⟨k, v⟩ := p
    by_cases hk : k = c
    · subst hk; simp [insertDetected, assocLookup]
    · simp [insertDetected, assocLookup, hk, ih]

theorem assocLookup_insertDetected_ne (d : List (String × List String)) (c c' fp : String)
    (h : c' ≠ c) : assocLookup (insertDetected d c fp) c' = assocLookup d c' := by
  induction d with
  | nil => simp [insertDetected, assocLookup, Ne.symm h]
  | cons p rest ih =>
    obtain ⟨k, v⟩ := p
    by_cases hk : k = c
    · subst hk; simp [insertDetected, assocLookup, Ne.symm h]
    · by_cases hk' : k = c' <;> simp [insertDetected, assocLookup, hk, hk', ih, h, Ne.symm h]

theorem assocLookup_setType_self (m : List (String × Option String)) (c : String)
    (t : Option String) : assocLookup (setType m c t) c = some t := by
  induction m with
  | nil => simp [setType, assocLookup]
  | cons p rest ih =>
    obtain ⟨k, v⟩ := p
    by_cases hk : k = c
    · subst hk; simp [setType, assocLookup]
    · simp [setType, assocLookup, hk, ih]

theorem assocLookup_setType_ne (m : List (String × Option String)) (c c' : String)
    (t : Option String) (h : c' ≠ c) :
    assocLookup (setType m c t) c' = assocLookup m c' := by
  induction m with
  | nil => simp [setType, assocLookup, Ne.symm h]
  | cons p rest ih =>
    obtain ⟨k, v⟩ := p
    by_cases hk : k = c
    · subst hk; simp [setType, assocLookup, Ne.symm h]
    · by_cases hk' : k = c' <;> simp [setType, assocLookup, hk, hk', ih, h, Ne.symm h]

theorem assocLookup_isSome_of_mem {α : Type} {m : List (String × α)} {k : String} {v : α}
    (h : (k, v) ∈ m) : (assocLookup m k).isSome = true := by
  induction m with
  | nil => cases h
  | cons p rest ih =>
    obtain ⟨k2, v2⟩ := p
    rcases List.mem_cons.mp h with h1 | h2
    · rw [Prod.mk.injEq] at h1
      simp [assocLookup, h1.1]
    · by_cases hk : k2 = k <;> simp [assocLookup, hk, ih h2]

theorem assocLookup_map_values {α β : Type} (f : String → α → β)
    (m : List (String × α)) (k : String) :
    assocLookup (m.map (fun p => (p.1, f p.1 p.2))) k = (assocLookup m k).map (f k) := by
  induction m with
  | nil => simp [assocLookup]
  | cons p rest ih =>
    obtain ⟨k2, v⟩ := p
    by_cases hk : k2 = k
    · subst hk; simp [assocLookup]
    · simp [assocLookup, hk, ih]

theorem flatten_insertDetected_perm (d : List (String × List String)) (c fp : String) :
    (((insertDetected d c fp).map Prod.snd).flatten).Perm
      ((d.map Prod.snd).flatten ++ [fp]) := by
  induction d with
  | nil => simp [insertDetected]
  | cons p rest ih =>
    obtain ⟨k, v⟩ := p
    by_cases hk : k = c
    · subst hk
      have hins : insertDetected ((k, v) :: rest) k fp = (k, v ++ [fp]) :: rest := by
        simp [insertDetected]
      rw [hins]
      simp only [List.map_cons, List.flatten_cons]
      rw [List.append_assoc, List.append_assoc]
      exact List.Perm.append_left v List.perm_append_comm
    · simp only [insertDetected, if_neg hk, List.map_cons, List.flatten_cons]
      refine (List.Perm.append_left v ih).trans ?_
      rw [List.append_assoc]

/-! ## Count vector lemmas -/

theorem getElem?_zipWith_some {α β γ : Type} (f : α → β → γ) :
    ∀ (l1 : List α) (l2 : List β) (i : Nat) (a : α) (b : β),
      l1[i]? = some a → l2[i]? = some b → (List.zipWith f l1 l2)[i]? = some (f a b) := by
  intro l1
  induction l1 with
  | nil => intro l2 i a b h1 _; simp at h1
  | cons x xs ih =>
    intro l2 i a b h1 h2
    cases l2 with
    | nil => simp at h2
    | cons y ys =>
      cases i with
      | zero =>
        simp only [List.getElem?_cons_zero, Option.some.injEq] at h1 h2
        simp [List.zipWith_cons_cons, h1, h2]
      | succ n =>
        simp only [List.getElem?_cons_succ] at h1 h2
        simpa only [List.zipWith_cons_cons, List.getElem?_cons_succ] using ih ys n a b h1 h2

theorem count_arr_step_getElem? (dirs : List String) (arr : List Nat) (fp : String)
    (i : Nat) (cnt : Nat) (d : String) (h1 : arr[i]? = some cnt) (h2 : dirs[i]? = some d) :
    (count_arr_step dirs arr fp)[i]? =
      some (if startsWithDir d fp then cnt + 1 else cnt) :=
  getElem?_zipWith_some _ arr dirs i cnt d h1 h2

theorem foldl_count_arr_step_getElem? (dirs : List String) (fps : List String) :
    ∀ (arr : List Nat) (i : Nat) (cnt : Nat) (d : String),
      dirs[i]? = some d → arr[i]? = some cnt →
      (fps.foldl (count_arr_step dirs) arr)[i]? =
        some (cnt + (fps.filter (fun fp => startsWithDir d fp)).length) := by
  induction fps with
  | nil => intro arr i cnt d _ ha; simpa using ha
  | cons fp fps ih =>
    intro arr i cnt d hd ha
    have hstep := count_arr_step_getElem? dirs arr fp i cnt d ha hd
    rw [List.foldl_cons]
    by_cases hpre : startsWithDir d fp
    · rw [if_pos hpre] at hstep
      rw [ih (count_arr_step dirs arr fp) i (cnt + 1) d hd hstep]
      have hlen : ((fp :: fps).filter (fun fp => startsWithDir d fp)).length =
          (fps.filter (fun fp => startsWithDir d fp)).length + 1 := by
        simp [List.filter_cons, hpre]
      rw [hlen]
      congr 1
      omega
    · rw [if_neg hpre] at hstep
      rw [ih (count_arr_step dirs arr fp) i cnt d hd hstep]
      have hlen : ((fp :: fps).filter (fun fp => startsWithDir d fp)).length =
          (fps.filter (fun fp => startsWithDir d fp)).length := by
        simp [List.filter_cons, hpre]
      rw [hlen]

theorem count_arr_getElem? (fps dirs : List String) (i : Nat) (d : String)
    (h : dirs[i]? = some d) :
    (count_arr fps dirs)[i]? =
      some ((fps.filter (fun fp => startsWithDir d fp)).length) := by
  have h0 : (dirs.map (fun _ => (0 : Nat)))[i]? = some 0 := by
    rw [List.getElem?_map, h]; rfl
  have := foldl_count_arr_step_getElem? dirs fps (dirs.map fun _ => 0) i 0 d h h0
  rw [count_arr]
  simpa using this

theorem count_arr_step_length (dirs : List String) (arr : List Nat) (fp : String)
    (h : arr.length = dirs.length) : (count_arr_step dirs arr fp).length = dirs.length := by
  simp [count_arr_step, List.length_zipWith, h]

theorem foldl_count_arr_step_length (dirs fps : List String) :
    ∀ arr, arr.length = dirs.length →
      (fps.foldl (count_arr_step dirs) arr).length = dirs.length := by
  induction fps with
  | nil => intro arr h; simpa using h
  | cons fp fps ih =>
    intro arr h
    rw [List.foldl_cons]
    exact ih _ (count_arr_step_length dirs arr fp h)

theorem count_arr_length (fps dirs : List String) :
    (count_arr fps dirs).length = dirs.length :=
  foldl_count_arr_step_length dirs fps _ (by simp)

theorem count_arr_perm {fps fps' : List String} (dirs : List String) (hp : fps.Perm fps') :
    count_arr fps dirs = count_arr fps' dirs := by
  apply List.ext_getElem?
  intro n
  by_cases hn : n < dirs.length
  · have hd : dirs[n]? = some dirs[n] := List.getElem?_eq_getElem hn
    rw [count_arr_getElem? fps dirs n dirs[n] hd,
        count_arr_getElem? fps' dirs n dirs[n] hd]
    rw [← List.countP_eq_length_filter, ← List.countP_eq_length_filter,
        List.Perm.countP_eq _ hp]
  · rw [List.getElem?_eq_none (by rw [count_arr_length]; omega),
        List.getElem?_eq_none (by rw [count_arr_length]; omega)]

/-! ## Characterisation of create_index -/

/-- The file paths of the items of `objs` that decoded to `c`, in input order. -/
def codePaths (objs : List DecodedObjectFile) (c : String) : List String :=
  (objs.filter (fun o => o.code == some c)).map (fun o => o.filepath)

/-- The file paths of the items of `objs` that failed to decode, in input order. -/
def failedPaths (objs : List DecodedObjectFile) : List String :=
  objs.filterMap (fun o => match o.code with | none => some o.filepath | some _ => none)

/-- The file paths of the items of `objs` that decoded successfully, in input order. -/
def okPaths (objs : List DecodedObjectFile) : List String :=
  (objs.filter (fun o => o.code.isSome)).map (fun o => o.filepath)

theorem undetected_foldl (objs : List DecodedObjectFile) :
    ∀ st : DecodedObjectFileIndex,
      (objs.foldl create_index_step st).undetected = st.undetected ++ failedPaths objs := by
  induction objs with
  | nil => intro st; simp [failedPaths]
  | cons o objs ih =>
    intro st
    rw [List.foldl_cons, ih]
    cases hc : o.code with
    | none =>
      simp [create_index_step, hc, failedPaths, List.filterMap_cons, List.append_assoc]
    | some c => simp [create_index_step, hc, failedPaths, List.filterMap_cons]

theorem detected_lookup_getD_foldl (c : String) (objs : List DecodedObjectFile) :
    ∀ st : DecodedObjectFileIndex,
      (assocLookup (objs.foldl create_index_step st).detected c).getD [] =
        (assocLookup st.detected c).getD [] ++ codePaths objs c := by
  induction objs with
  | nil => intro st; simp [codePaths]
  | cons o objs ih =>
    intro st
    rw [List.foldl_cons, ih]
    cases hc : o.code with
    | none =>
      have hdet : (create_index_step st o).detected = st.detected := by
        simp [create_index_step, hc]
      rw [hdet]
      simp [codePaths, List.filter_cons, hc]
    | some c2 =>
      have hdet : (create_index_step st o).detected =
          insertDetected st.detected c2 o.filepath := by
        simp [create_index_step, hc]
      rw [hdet]
      by_cases hcc : c2 = c
      · subst hcc
        rw [assocLookup_insertDetected_self]
        simp [codePaths, List.filter_cons, hc, List.append_assoc]
      · rw [assocLookup_insertDetected_ne _ _ _ _ (Ne.symm hcc)]
        have hfalse : (o.code == some c) = false := by simp [hc, hcc]
        simp [codePaths, List.filter_cons, hfalse]

theorem detected_lookup_isSome_foldl (c : String) (objs : List DecodedObjectFile) :
    ∀ st : DecodedObjectFileIndex,
      (assocLookup (objs.foldl create_index_step st).detected c).isSome =
        ((assocLookup st.detected c).isSome || objs.any (fun o => o.code == some c)) := by
  induction objs with
  | nil => intro st; simp
  | cons o objs ih =>
    intro st
    rw [List.foldl_cons, ih]
    cases hc : o.code with
    | none =>
      have hdet : (create_index_step st o).detected = st.detected := by
        simp [create_index_step, hc]
      rw [hdet]
      simp [hc]
    | some c2 =>
      have hdet : (create_index_step st o).detected =
          insertDetected st.detected c2 o.filepath := by
        simp [create_index_step, hc]
      rw [hdet]
      by_cases hcc : c2 = c
      · subst hcc
        rw [assocLookup_insertDetected_self]
        simp [hc]
      · rw [assocLookup_insertDetected_ne _ _ _ _ (Ne.symm hcc)]
        have hb : (c2 == c) = false := by simp [hcc]
        simp [hc, hb]

theorem code2type_lookup_isSome_foldl (c : String) (objs : List DecodedObjectFile) :
    ∀ st : DecodedObjectFileIndex,
      (assocLookup (objs.foldl create_index_step st).code2type c).isSome =
        ((assocLookup st.code2type c).isSome || objs.any (fun o => o.code == some c)) := by
  induction objs with
  | nil => intro st; simp
  | cons o objs ih =>
    intro st
    rw [List.foldl_cons, ih]
    cases hc : o.code with
    | none =>
      have hct : (create_index_step st o).code2type = st.code2type := by
        simp [create_index_step, hc]
      rw [hct]
      simp [hc]
    | some c2 =>
      have hct : (create_index_step st o).code2type = setType st.code2type c2 o.type := by
        simp [create_index_step, hc]
      rw [hct]
      by_cases hcc : c2 = c
      · subst hcc
        rw [assocLookup_setType_self]
        simp [hc]
      · rw [assocLookup_setType_ne _ _ _ _ (Ne.symm hcc)]
        have hb : (c2 == c) = false := by simp [hcc]
        simp [hc, hb]

theorem flatten_detected_foldl_perm (objs : List DecodedObjectFile) :
    ∀ st : DecodedObjectFileIndex,
      (((objs.foldl create_index_step st).detected.map Prod.snd).flatten).Perm
        ((st.detected.map Prod.snd).flatten ++ okPaths objs) := by
  induction objs with
  | nil => intro st; simp [okPaths]
  | cons o objs ih =>
    intro st
    rw [List.foldl_cons]
    refine (ih (create_index_step st o)).trans ?_
    cases hc : o.code with
    | none =>
      have hdet : (create_index_step st o).detected = st.detected := by
        simp [create_index_step, hc]
      have hok : okPaths (o :: objs) = okPaths objs := by
        simp [okPaths, List.filter_cons, hc]
      rw [hdet, hok]
    | some c2 =>
      have hdet : (create_index_step st o).detected =
          insertDetected st.detected c2 o.filepath := by
        simp [create_index_step, hc]
      have hok : okPaths (o :: objs) = o.filepath :: okPaths objs := by
        simp [okPaths, List.filter_cons, hc]
      rw [hdet, hok]
      refine (List.Perm.append
        (flatten_insertDetected_perm st.detected c2 o.filepath) (List.Perm.refl _)).trans ?_
      rw [List.append_assoc, List.singleton_append]

theorem create_index_undetected (objs : List DecodedObjectFile) :
    (create_index objs).undetected = failedPaths objs := by
  simpa using undetected_foldl objs ⟨[], [], []⟩

theorem create_index_detected_lookup (objs : List DecodedObjectFile) (c : String) :
    assocLookup (create_index objs).detected c =
      if objs.any (fun o => o.code == some c) then some (codePaths objs c) else none := by
  have h1 : (assocLookup (create_index objs).detected c).getD [] = codePaths objs c := by
    simpa [assocLookup] using detected_lookup_getD_foldl c objs ⟨[], [], []⟩
  have h2 : (assocLookup (create_index objs).detected c).isSome =
      objs.any (fun o => o.code == some c) := by
    simpa [assocLookup] using detected_lookup_isSome_foldl c objs ⟨[], [], []⟩
  cases hopt : assocLookup (create_index objs).detected c with
  | none =>
    rw [hopt] at h2
    simp only [Option.isSome_none] at h2
    rw [if_neg]
    rw [← h2]
    simp
  | some v =>
    rw [hopt] at h1 h2
    simp only [Option.getD_some] at h1
    simp only [Option.isSome_some] at h2
    rw [if_pos h2.symm, h1]

theorem create_index_code2type_isSome (objs : List DecodedObjectFile) (c : String) :
    (assocLookup (create_index objs).code2type c).isSome =
      objs.any (fun o => o.code == some c) := by
  simpa [assocLookup] using code2type_lookup_isSome_foldl c objs ⟨[], [], []⟩

theorem create_index_detected_isSome (objs : List DecodedObjectFile) (c : String) :
    (assocLookup (create_index objs).detected c).isSome =
      objs.any (fun o => o.code == some c) := by
  simpa [assocLookup] using detected_lookup_isSome_foldl c objs ⟨[], [], []⟩

theorem create_index_flatten_perm (objs : List DecodedObjectFile) :
    (((create_index objs).detected.map Prod.snd).flatten).Perm (okPaths objs) := by
  simpa using flatten_detected_foldl_perm objs ⟨[], [], []⟩

/-! ## Classification lemmas -/

theorem not_all_one_any (counts : List Nat)
    (h : counts.all (fun cnt => cnt == 1) = false) :
    counts.any (fun cnt => cnt == 0) = true ∨
      counts.any (fun cnt => decide (1 < cnt)) = true := by
  have hx : ¬ (∀ cnt ∈ counts, (cnt == 1) = true) := by
    rw [← List.all_eq_true]
    simp [h]
  push_neg at hx
  obtain ⟨cnt, hmem, hne⟩ := hx
  have hne' : cnt ≠ 1 := by simpa using hne
  rcases Nat.lt_or_ge cnt 1 with hlt | hge
  · left
    rw [List.any_eq_true]
    exact ⟨cnt, hmem, by simp; omega⟩
  · right
    rw [List.any_eq_true]
    exact ⟨cnt, hmem, by simp; omega⟩

theorem classify_code_of_all_one (counts : List Nat)
    (h : counts.all (fun cnt => cnt == 1) = true) :
    classify_code counts = ["MATCH_ALL"] := by
  simp [classify_code, h]

theorem classify_code_of_not_all (counts : List Nat)
    (h : counts.all (fun cnt => cnt == 1) = false) :
    classify_code counts =
      (if counts.any (fun cnt => cnt == 0) then ["MISSING"] else []) ++
      (if counts.any (fun cnt => decide (1 < cnt)) then ["DUPLICATED"] else []) := by
  have halt := not_all_one_any counts h
  by_cases h0 : counts.any (fun cnt => cnt == 0) = true <;>
    by_cases h1 : counts.any (fun cnt => decide (1 < cnt)) = true <;>
      simp [classify_code, h, h0, h1] <;> tauto

theorem classify_code_ne_nil (counts : List Nat) : classify_code counts ≠ [] := by
  by_cases h : counts.all (fun cnt => cnt == 1) = true
  · simp [classify_code_of_all_one counts h]
  · have hall : counts.all (fun cnt => cnt == 1) = false := by
      cases hx : counts.all (fun cnt => cnt == 1) <;> simp_all
    rw [classify_code_of_not_all counts hall]
    rcases not_all_one_any counts hall with h0 | h1
    · simp [h0]
    · by_cases h0 : counts.any (fun cnt => cnt == 0) = true <;> simp [h0, h1]

theorem invalid_not_mem_classify (counts : List Nat) :
    "INVALID" ∉ classify_code counts := by
  by_cases h : counts.all (fun cnt => cnt == 1) = true
  · simp [classify_code_of_all_one counts h]
  · have hall : counts.all (fun cnt => cnt == 1) = false := by
      cases hx : counts.all (fun cnt => cnt == 1) <;> simp_all
    rw [classify_code_of_not_all counts hall]
    have halt := not_all_one_any counts hall
    by_cases h0 : counts.any (fun cnt => cnt == 0) = true <;>
      by_cases h1 : counts.any (fun cnt => decide (1 < cnt)) = true <;>
        simp [h0, h1] <;> tauto

/-! ## Claims C1, C2, C3, C6 -/

/-- C1: a code whose count vector over the N ≥ 1 given directories is all
ones is classified exactly `["MATCH_ALL"]` (the label the spec calls
`MATCHED`) — a singleton, so no other label applies. -/
theorem C1_all_ones_match_all (fps dirs : List String) (hN : 0 < dirs.length)
    (h : ∀ cnt ∈ count_arr fps dirs, cnt = 1) :
    classify_code (count_arr fps dirs) = ["MATCH_ALL"] := by
  apply classify_code_of_all_one
  rw [List.all_eq_true]
  intro cnt hmem
  simp [h cnt hmem]

/-- Witness for C1: one directory `A` holding one file with the code. -/
theorem C1_all_ones_match_all_witness :
    classify_code (count_arr ["A/x.png"] ["A"]) = ["MATCH_ALL"] :=
  C1_all_ones_match_all ["A/x.png"] ["A"] (by decide) (by decide)

/-- C2: when the count vector is not all ones, `MISSING` is present iff some
entry is 0 and `DUPLICATED` iff some entry exceeds 1; in particular the
three exact label sets `["MISSING"]`, `["DUPLICATED"]` and
`["MISSING", "DUPLICATED"]` arise as the claim states. -/
theorem C2_missing_duplicated (counts : List Nat)
    (h : ¬ ∀ cnt ∈ counts, cnt = 1) :
    ("MISSING" ∈ classify_code counts ↔ ∃ cnt ∈ counts, cnt = 0) ∧
    ("DUPLICATED" ∈ classify_code counts ↔ ∃ cnt ∈ counts, 1 < cnt) ∧
    ((∃ cnt ∈ counts, cnt = 0) → (∀ cnt ∈ counts, cnt ≤ 1) →
      classify_code counts = ["MISSING"]) ∧
    ((∃ cnt ∈ counts, 1 < cnt) → (∀ cnt ∈ counts, cnt ≠ 0) →
      classify_code counts = ["DUPLICATED"]) ∧
    ((∃ cnt ∈ counts, cnt = 0) → (∃ cnt ∈ counts, 1 < cnt) →
      classify_code counts = ["MISSING", "DUPLICATED"]) := by
  have hall : counts.all (fun cnt => cnt == 1) = false := by
    rw [← Bool.not_eq_true, List.all_eq_true]
    simpa using h
  have h0e : (counts.any (fun cnt => cnt == 0) = true) ↔ (∃ cnt ∈ counts, cnt = 0) := by
    simp [List.any_eq_true]
  have h1e : (counts.any (fun cnt => decide (1 < cnt)) = true) ↔
      (∃ cnt ∈ counts, 1 < cnt) := by
    simp [List.any_eq_true]
  have halt := not_all_one_any counts hall
  rw [classify_code_of_not_all counts hall]
  refine ⟨?_, ?_, ?_, ?_, ?_⟩
  · rw [← h0e]
    by_cases h0 : counts.any (fun cnt => cnt == 0) = true <;>
      by_cases h1 : counts.any (fun cnt => decide (1 < cnt)) = true <;>
        simp [h0, h1] <;> tauto
  · rw [← h1e]
    by_cases h0 : counts.any (fun cnt => cnt == 0) = true <;>
      by_cases h1 : counts.any (fun cnt => decide (1 < cnt)) = true <;>
        simp [h0, h1] <;> tauto
  · intro he hle
    have h0 : counts.any (fun cnt => cnt == 0) = true := h0e.mpr he
    have h1 : ¬ (counts.any (fun cnt => decide (1 < cnt)) = true) := by
      rw [h1e]
      rintro ⟨c, hc, hlt⟩
      exact absurd (hle c hc) (by omega)
    simp [h0, h1]
  · intro he hne
    have h1 : counts.any (fun cnt => decide (1 < cnt)) = true := h1e.mpr he
    have h0 : ¬ (counts.any (fun cnt => cnt == 0) = true) := by
      rw [h0e]
      rintro ⟨c, hc, hzero⟩
      exact hne c hc hzero
    simp [h0, h1]
  · intro he0 he1
    simp [h0e.mpr he0, h1e.mpr he1]

/-- Witness for C2: count vector `[0, 2]` yields `["MISSING", "DUPLICATED"]`. -/
theorem C2_missing_duplicated_witness :
    classify_code [0, 2] = ["MISSING", "DUPLICATED"] :=
  (C2_missing_duplicated [0, 2] (by decide)).2.2.2.2 (by decide) (by decide)

theorem count_arr_step_id (p : String) :
    ∀ (dirs : List String) (arr : List Nat), arr.length = dirs.length →
      (∀ d ∈ dirs, startsWithDir d p = false) →
      count_arr_step dirs arr p = arr := by
  intro dirs
  induction dirs with
  | nil =>
    intro arr hlen _
    rw [List.length_eq_zero.mp hlen]
    simp [count_arr_step]
  | cons d dirs ih =>
    intro arr hlen hp
    cases arr with
    | nil => simp at hlen
    | cons a arr =>
      have h1 := hp d (by simp)
      have hlen' : arr.length = dirs.length := by simpa using hlen
      have hp' : ∀ d2 ∈ dirs, startsWithDir d2 p = false :=
        fun d2 hd2 => hp d2 (by simp [hd2])
      simp only [count_arr_step, List.zipWith_cons_cons, h1]
      simp only [Bool.false_eq_true, if_false, List.cons.injEq, true_and]
      exact ih arr hlen' hp'

/-- C3: `counts[i]` equals the number of the code's file paths that start
with `directories[i]` followed by the path separator; a path lying under no
directory contributes to no slot of the vector. -/
theorem C3_count_vector (fps dirs : List String) :
    (∀ (i : Nat) (d : String), dirs[i]? = some d →
      (count_arr fps dirs)[i]? =
        some ((fps.filter (fun fp => startsWithDir d fp)).length)) ∧
    (∀ p, (∀ d ∈ dirs, startsWithDir d p = false) →
      count_arr (p :: fps) dirs = count_arr fps dirs) := by
  constructor
  · intro i d hd
    exact count_arr_getElem? fps dirs i d hd
  · intro p hp
    rw [count_arr, count_arr, List.foldl_cons,
        count_arr_step_id p dirs (dirs.map fun _ => 0) (by simp) hp]

/-- Witness for C3 at concrete inputs: the slot of directory `A` counts
exactly its own file, and a stray path under no directory changes nothing. -/
theorem C3_count_vector_witness :
    (count_arr ["A/x.png", "B/y.png"] ["A"])[0]? =
      some (((["A/x.png", "B/y.png"] : List String).filter
        (fun fp => startsWithDir "A" fp)).length) ∧
    count_arr ("C/z.png" :: ["A/x.png"]) ["A", "B"] = count_arr ["A/x.png"] ["A", "B"] :=
  ⟨(C3_count_vector ["A/x.png", "B/y.png"] ["A"]).1 0 "A" (by decide),
   (C3_count_vector ["A/x.png"] ["A", "B"]).2 "C/z.png" (by decide)⟩

/-- C6: `INVALID` is in the classification exactly when the all-ones branch
did not match and neither `MISSING` nor `DUPLICATED` was added — which never
happens — so for N ≥ 1 directories every code gets a non-empty label list
that never contains `INVALID`. -/
theorem C6_invalid_unreachable (fps dirs : List String) (hN : 0 < dirs.length) :
    ("INVALID" ∈ classify_code (count_arr fps dirs) ↔
      (¬ (count_arr fps dirs).all (fun cnt => cnt == 1) = true ∧
       "MISSING" ∉ classify_code (count_arr fps dirs) ∧
       "DUPLICATED" ∉ classify_code (count_arr fps dirs))) ∧
    classify_code (count_arr fps dirs) ≠ [] ∧
    "INVALID" ∉ classify_code (count_arr fps dirs) := by
  have hinv := invalid_not_mem_classify (count_arr fps dirs)
  refine ⟨⟨fun hmem => absurd hmem hinv, ?_⟩, classify_code_ne_nil _, hinv⟩
  rintro ⟨hna, hM, hD⟩
  have hall : (count_arr fps dirs).all (fun cnt => cnt == 1) = false := by
    cases hx : (count_arr fps dirs).all (fun cnt => cnt == 1) <;> simp_all
  rcases not_all_one_any _ hall with h0 | h1
  · exact (hM (by rw [classify_code_of_not_all _ hall]; simp [h0])).elim
  · exact (hD (by rw [classify_code_of_not_all _ hall]; simp [h1])).elim

/-- Witness for C6: with one directory the classification of a matched file
is non-empty and `INVALID`-free. -/
theorem C6_invalid_unreachable_witness :
    classify_code (count_arr ["A/x.png"] ["A"]) ≠ [] ∧
    "INVALID" ∉ classify_code (count_arr ["A/x.png"] ["A"]) :=
  (C6_invalid_unreachable ["A/x.png"] ["A"] (by decide)).2

/-! ## Claim C4 (corrected) -/

theorem okPaths_append_failedPaths_perm (objs : List DecodedObjectFile) :
    (okPaths objs ++ failedPaths objs).Perm (objs.map (fun o => o.filepath)) := by
  induction objs with
  | nil => simp [okPaths, failedPaths]
  | cons o objs ih =>
    cases hc : o.code with
    | none =>
      have hok : okPaths (o :: objs) = okPaths objs := by
        simp [okPaths, List.filter_cons, hc]
      have hfail : failedPaths (o :: objs) = o.filepath :: failedPaths objs := by
        simp [failedPaths, List.filterMap_cons, hc]
      rw [hok, hfail, List.map_cons]
      exact (List.perm_middle).trans (ih.cons o.filepath)
    | some c =>
      have hok : okPaths (o :: objs) = o.filepath :: okPaths objs := by
        simp [okPaths, List.filter_cons, hc]
      have hfail : failedPaths (o :: objs) = failedPaths objs := by
        simp [failedPaths, List.filterMap_cons, hc]
      rw [hok, hfail, List.map_cons, List.cons_append]
      exact ih.cons o.filepath

/-- Counterexample to C4 as stated: when the same file path occurs in both a
decoded item and a failed item, it ends up in `undetected` AND in a
`detected` list, so "never both" fails and a failed item's path does appear
among the `detected` values. -/
theorem C4_counterexample :
    "p" ∈ (create_index [DecodedObjectFile.mk (some "X") (some "T") "p",
        DecodedObjectFile.mk none none "p"]).undetected ∧
    "p" ∈ (((create_index [DecodedObjectFile.mk (some "X") (some "T") "p",
        DecodedObjectFile.mk none none "p"]).detected.map Prod.snd).flatten) := by
  decide

/-- C4 (amended): every input item contributes its file path to exactly one
list — the multiset union of the `detected` values plus `undetected` is a
permutation of the input's file paths — every path among the `detected`
values stems from a successfully decoded item and every path in
`undetected` from a failed one.  (The set-level "never both" of the claim
holds only when no path string occurs in both a decoded and a failed
item.) -/
theorem C4_partition (objs : List DecodedObjectFile) :
    ((((create_index objs).detected.map Prod.snd).flatten ++
        (create_index objs).undetected).Perm (objs.map (fun o => o.filepath))) ∧
    (∀ fp, fp ∈ ((create_index objs).detected.map Prod.snd).flatten →
      ∃ o ∈ objs, o.code ≠ none ∧ o.filepath = fp) ∧
    (∀ fp, fp ∈ (create_index objs).undetected →
      ∃ o ∈ objs, o.code = none ∧ o.filepath = fp) := by
  refine ⟨?_, ?_, ?_⟩
  · rw [create_index_undetected]
    exact ((List.Perm.append (create_index_flatten_perm objs)
      (List.Perm.refl _)).trans (okPaths_append_failedPaths_perm objs))
  · intro fp hmem
    have hmem2 : fp ∈ okPaths objs :=
      ((create_index_flatten_perm objs).mem_iff).mp hmem
    simp only [okPaths, List.mem_map, List.mem_filter] at hmem2
    obtain ⟨o, ⟨ho, hsome⟩, hfp⟩ := hmem2
    refine ⟨o, ho, ?_, hfp⟩
    simp only [Option.isSome_iff_ne_none] at hsome
    exact hsome
  · intro fp hmem
    rw [create_index_undetected] at hmem
    simp only [failedPaths, List.mem_filterMap] at hmem
    obtain ⟨o, ho, hmatch⟩ := hmem
    cases hc : o.code with
    | none =>
      refine ⟨o, ho, hc, ?_⟩
      rw [hc] at hmatch
      simpa using hmatch
    | some c =>
      rw [hc] at hmatch
      simp at hmatch

/-- Witness for C4 at a concrete input: the detected path of a decoded item
indeed stems from a decoded item. -/
theorem C4_partition_witness :
    ∃ o ∈ [DecodedObjectFile.mk (some "X") (some "T") "A/x.png"],
      o.code ≠ none ∧ o.filepath = "A/x.png" :=
  (C4_partition [DecodedObjectFile.mk (some "X") (some "T") "A/x.png"]).2.1
    "A/x.png" (by decide)

/-! ## Claim C5 (corrected) -/

/-- Counterexample to C5 as stated: an item constructed with a present but
empty code is NOT indexed under the code `""` — the constructor maps the
falsy empty string to `None`, so the path goes to `undetected` and
`detected` stays empty. -/
theorem C5_counterexample :
    (create_index [DecodedObjectFile.make (some "") (some "QRCODE") "A/f.png"]).detected
        = [] ∧
    (create_index [DecodedObjectFile.make (some "") (some "QRCODE") "A/f.png"]).undetected
        = ["A/f.png"] := by
  decide

/-- C5 (amended): the index builder is total — appending an item constructed
with the empty-string code to any input still produces an index, and that
item is treated as not detected: its file path is appended to `undetected`
while `detected` and `code2type` are unchanged. -/
theorem C5_empty_code_undetected (objs : List DecodedObjectFile)
    (t : Option String) (fp : String) :
    create_index (objs ++ [DecodedObjectFile.make (some "") t fp]) =
      { create_index objs with
        undetected := (create_index objs).undetected ++ [fp] } := by
  rw [create_index, List.foldl_append,
      show (DecodedObjectFile.make (some "") t fp) = ⟨none, t, fp⟩ from by
        simp [DecodedObjectFile.make]]
  rfl

/-! ## Claim C7 -/

theorem any_perm_eq {α : Type} {l l' : List α} (p : α → Bool) (hp : l.Perm l') :
    l.any p = l'.any p := by
  induction hp with
  | nil => rfl
  | cons x h ih => simp [List.any_cons, ih]
  | swap x y l => cases hx : p x <;> cases hy : p y <;> simp [List.any_cons, hx, hy]
  | trans h1 h2 ih1 ih2 => rw [ih1, ih2]

theorem compare_labels_lookup (idx : DecodedObjectFileIndex) (dirs : List String)
    (c : String) :
    assocLookup (compare_labels idx dirs) c =
      (assocLookup idx.detected c).map
        (fun fps => classify_code (count_arr fps dirs)) :=
  assocLookup_map_values (fun _ fps => classify_code (count_arr fps dirs)) idx.detected c

/-- C7: building the index from any permutation of the input sequence yields
the same code-to-label mapping under `compare` for every directory list:
classification is order-independent. -/
theorem C7_order_independent (objs objs' : List DecodedObjectFile)
    (hp : objs.Perm objs') (dirs : List String) (code : String) :
    assocLookup (compare_labels (create_index objs) dirs) code =
      assocLookup (compare_labels (create_index objs') dirs) code := by
  rw [compare_labels_lookup, compare_labels_lookup,
      create_index_detected_lookup, create_index_detected_lookup]
  have hany : objs'.any (fun o => o.code == some code) =
      objs.any (fun o => o.code == some code) := any_perm_eq _ hp.symm
  rw [hany]
  by_cases h : objs.any (fun o => o.code == some code) = true
  · have hperm : (codePaths objs code).Perm (codePaths objs' code) :=
      List.Perm.map _ (List.Perm.filter _ hp)
    simp [h, count_arr_perm dirs hperm]
  · simp [h]

/-- Witness for C7: swapping two concrete items leaves the classification of
code `X` unchanged. -/
theorem C7_order_independent_witness :
    assocLookup (compare_labels (create_index
      [DecodedObjectFile.mk (some "X") (some "T") "A/x.png",
       DecodedObjectFile.mk none none "B/y.png"]) ["A", "B"]) "X" =
    assocLookup (compare_labels (create_index
      [DecodedObjectFile.mk none none "B/y.png",
       DecodedObjectFile.mk (some "X") (some "T") "A/x.png"]) ["A", "B"]) "X" :=
  C7_order_independent _ _
    (List.Perm.swap (DecodedObjectFile.mk none none "B/y.png")
      (DecodedObjectFile.mk (some "X") (some "T") "A/x.png") []) ["A", "B"] "X"

/-! ## Claims C8, C9, C10 about the report rows -/

theorem getElem?_cons3 {α : Type} (a b c : α) (l : List α) (i : Nat) :
    (a :: b :: c :: l)[i + 3]? = l[i]? := by
  simp [List.getElem?_cons_succ]

/-- C8: the report row of the j-th detected code holds, in the column of
the i-th directory (cell i+3), exactly the relative paths of that code's
file paths that lie under that directory — the filtered paths, each
relativised, nothing more and nothing less. -/
theorem C8_report_cells (idx : DecodedObjectFileIndex) (dirs : List String)
    (j i : Nat) (code : String) (fps : List String) (d : String)
    (hj : idx.detected[j]? = some (code, fps)) (hi : dirs[i]? = some d) :
    ∃ row, (compare idx dirs).2[j]? = some row ∧
      row[i + 3]? = some (Cell.strs
        ((fps.filter (fun fp => startsWithDir d fp)).map (fun fp => relpath fp d))) := by
  have hjlt : j < idx.detected.length := by
    rcases List.getElem?_eq_some.mp hj with ⟨h, _⟩
    exact h
  refine ⟨detected_row (compare_labels idx dirs) idx dirs code fps, ?_, ?_⟩
  · simp only [compare, compare_result]
    rw [List.getElem?_append]
    rw [if_pos (by simpa using hjlt)]
    rw [List.getElem?_map, hj]
    rfl
  · rw [detected_row, getElem?_cons3, List.getElem?_map, hi]
    rfl

/-- Witness for C8: one code under directory `A`, its column cell is the
relative path list. -/
theorem C8_report_cells_witness :
    ∃ row, (compare ⟨[("X", ["A/x.png"])], [], [("X", some "T")]⟩ ["A"]).2[0]? =
        some row ∧
      row[0 + 3]? = some (Cell.strs (((["A/x.png"] : List String).filter
        (fun fp => startsWithDir "A" fp)).map (fun fp => relpath fp "A"))) :=
  C8_report_cells ⟨[("X", ["A/x.png"])], [], [("X", some "T")]⟩ ["A"]
    0 0 "X" ["A/x.png"] "A" (by decide) (by decide)

/-- Counterexample to C9 as stated: the extra row for an undetected file is
labeled `NO_DETECTED` (not `UNDETECTED`) and carries the string `"None"`
(not the empty string) in the code and type columns. -/
theorem C9_counterexample :
    (compare (create_index [DecodedObjectFile.mk none none "A/5.png"]) ["A", "B"]).2 =
      [[Cell.str "NO_DETECTED", Cell.str "None", Cell.str "None",
        Cell.str "5.png", Cell.str ""]] ∧
    Cell.str "NO_DETECTED" ≠ Cell.str "UNDETECTED" ∧
    Cell.str "None" ≠ Cell.str "" := by
  decide

/-- C9 (amended): for the k-th undetected file the report holds exactly one
additional row, at position `detected.length + k`, labeled `NO_DETECTED`
with code and type shown as the string `"None"`; the column of each
directory containing the file holds its relative path, every other
directory column is blank. -/
theorem C9_undetected_rows (idx : DecodedObjectFileIndex) (dirs : List String)
    (k : Nat) (fp : String) (hk : idx.undetected[k]? = some fp) :
    (compare idx dirs).2.length = idx.detected.length + idx.undetected.length ∧
    ∃ row, (compare idx dirs).2[idx.detected.length + k]? = some row ∧
      row[0]? = some (Cell.str "NO_DETECTED") ∧
      row[1]? = some (Cell.str "None") ∧
      row[2]? = some (Cell.str "None") ∧
      ∀ (i : Nat) (d : String), dirs[i]? = some d →
        row[i + 3]? = some (Cell.str
          (if startsWithDir d fp then relpath fp d else "")) := by
  constructor
  · simp [compare, compare_result]
  · refine ⟨undetected_row dirs fp, ?_, by simp [undetected_row], by simp [undetected_row],
      by simp [undetected_row], ?_⟩
    · simp only [compare, compare_result]
      rw [List.getElem?_append_right (by rw [List.length_map]; omega)]
      simp only [List.length_map]
      rw [show idx.detected.length + k - idx.detected.length = k from by omega]
      rw [List.getElem?_map, hk]
      rfl
    · intro i d hi
      rw [undetected_row, getElem?_cons3, List.getElem?_map, hi]
      rfl

/-- Witness for C9 (amended): the single undetected file `A/5.png` with
directories `A` and `B`. -/
theorem C9_undetected_rows_witness :
    (compare (create_index [DecodedObjectFile.mk none none "A/5.png"]) ["A", "B"]).2.length
        = (create_index [DecodedObjectFile.mk none none "A/5.png"]).detected.length +
          (create_index [DecodedObjectFile.mk none none "A/5.png"]).undetected.length ∧
    ∃ row, (compare (create_index [DecodedObjectFile.mk none none "A/5.png"])
        ["A", "B"]).2[(create_index [DecodedObjectFile.mk none none "A/5.png"]).detected.length + 0]?
        = some row ∧
      row[0]? = some (Cell.str "NO_DETECTED") ∧
      row[1]? = some (Cell.str "None") ∧
      row[2]? = some (Cell.str "None") ∧
      ∀ (i : Nat) (d : String), (["A", "B"] : List String)[i]? = some d →
        row[i + 3]? = some (Cell.str
          (if startsWithDir d "A/5.png" then relpath "A/5.png" d else "")) :=
  C9_undetected_rows (create_index [DecodedObjectFile.mk none none "A/5.png"])
    ["A", "B"] 0 "A/5.png" (by decide)

/-- C10: every key of the index's `detected` mapping is a key of its
code-to-type mapping, so the type lookup made for each detected code while
building report rows succeeds, and no report row of the full pipeline ever
contains the `KeyError` marker. -/
theorem C10_type_lookup (objs : List DecodedObjectFile) :
    (∀ code : String, (assocLookup (create_index objs).detected code).isSome = true →
      (get_decoded_object_type (create_index objs) code).isSome = true) ∧
    (∀ (dirs : List String) (row : List Cell),
      row ∈ (compare (create_index objs) dirs).2 → Cell.err ∉ row) := by
  constructor
  · intro code h
    rw [get_decoded_object_type, create_index_code2type_isSome]
    rw [create_index_detected_isSome] at h
    exact h
  · intro dirs row hrow
    simp only [compare, compare_result, List.mem_append] at hrow
    rcases hrow with hdet | hundet
    · simp only [List.mem_map] at hdet
      obtain ⟨p, hp, hrow⟩ := hdet
      subst hrow
      have hlook : (assocLookup (create_index objs).detected p.1).isSome = true :=
        assocLookup_isSome_of_mem (show (p.1, p.2) ∈ _ from by rw [Prod.mk.eta]; exact hp)
      have hcmp : (assocLookup (compare_labels (create_index objs) dirs) p.1).isSome
          = true := by
        rw [compare_labels_lookup]
        simpa using hlook
      have hct : (get_decoded_object_type (create_index objs) p.1).isSome = true := by
        rw [get_decoded_object_type, create_index_code2type_isSome]
        rw [create_index_detected_isSome] at hlook
        exact hlook
      obtain ⟨labels, hl⟩ := Option.isSome_iff_exists.mp hcmp
      obtain ⟨t, ht⟩ := Option.isSome_iff_exists.mp hct
      intro hmem
      simp only [detected_row, hl, ht, List.mem_cons, List.mem_map] at hmem
      rcases hmem with h | h | h | ⟨d2, hd2, h⟩ <;> simp_all
    · simp only [List.mem_map] at hundet
      obtain ⟨fp2, hfp2, hrow⟩ := hundet
      subst hrow
      intro hmem
      simp only [undetected_row, List.mem_cons, List.mem_map] at hmem
      rcases hmem with h | h | h | ⟨d2, hd2, h⟩ <;> simp_all

/-- Witness for C10: the type lookup for the one detected code succeeds. -/
theorem C10_type_lookup_witness :
    (get_decoded_object_type (create_index
      [DecodedObjectFile.mk (some "X") (some "T") "A/x.png"]) "X").isSome = true :=
  (C10_type_lookup [DecodedObjectFile.mk (some "X") (some "T") "A/x.png"]).1 "X" (by decide)

end QrCompare
